import Mathlib

/-!
Shallow embedding of the collection-store SDK found in src/src/lib/sdk.ts
(class UniversalSDK), together with proofs about its CRUD operations,
id allocation, schema validation and query builder.

Modelling conventions:
* JSON values are `JVal`; numbers are integers (floating point does not
  occur in the studied behaviour).
* A JS object is an association list in key insertion order, so list
  equality of records corresponds to byte equality of their JSON form.
* The remote blob store (GitHub contents API) is an explicit state: a map
  from collection name to a blob holding decoded content plus a sha token.
  Minting of shas and of uuid tokens is modeled by counters, and the
  read/write request counters make the number of network calls observable.
-/

namespace Sdk

mutual
/-- JSON-style value stored in records. Numbers are modeled as integers;
nested arrays and objects use the mutual list types below. -/
inductive JVal where
  | null
  | bool (b : Bool)
  | num (n : Int)
  | str (s : String)
  | arr (xs : JValList)
  | obj (fs : JValObj)
deriving DecidableEq

/-- Nested JSON array contents. -/
inductive JValList where
  | nil
  | cons (hd : JVal) (tl : JValList)
deriving DecidableEq

/-- Nested JSON object contents (key/value pairs in insertion order). -/
inductive JValObj where
  | nil
  | cons (k : String) (v : JVal) (tl : JValObj)
deriving DecidableEq
end

instance : Inhabited JVal := ⟨JVal.null⟩

/-- A record is a JS object: fields in insertion order. -/
abbrev Record := List (String × JVal)

/-- Field lookup, `x[k]`; `none` models JS undefined (absent property). -/
def getField : Record → String → Option JVal
  | [], _ => none
  | (k', v) :: r, k => if k' = k then some v else getField r k

/-- Property assignment `x[k] = v`: replaces the value in place when the
key exists, otherwise appends the new property (JS object semantics). -/
def setField : Record → String → JVal → Record
  | [], k, v => [(k, v)]
  | (k', v') :: r, k, v => if k' = k then (k', v) :: r else (k', v') :: setField r k v

/-- Object spread `{...base, ...ext}`: fields of `ext` assigned over `base`
in order, later fields winning. -/
def spread (base ext : Record) : Record :=
  ext.foldl (fun acc p => setField acc p.1 p.2) base

/-! ### Decimal rendering and parsing, modelling JS number/string coercion -/

/-- Decimal digit character. -/
def digitChar (d : Nat) : Char := Char.ofNat (48 + d)

/-- Decimal digits with an explicit fuel bound (structural recursion so
that concrete renderings are kernel reducible). -/
def toDigitsAux : Nat → Nat → List Char
  | 0, _ => []
  | fuel + 1, n =>
    if n < 10 then [digitChar n]
    else toDigitsAux fuel (n / 10) ++ [digitChar (n % 10)]

/-- Decimal digits of `n`, most significant first (JS `Number.toString`). -/
def toDigits (n : Nat) : List Char := toDigitsAux (n + 1) n

/-- Decimal rendering of a natural number. -/
def renderNat (n : Nat) : String := String.mk (toDigits n)

/-- Decimal rendering of an integer (JS `Number.toString` for integers). -/
def renderInt (n : Int) : String :=
  if n < 0 then "-" ++ renderNat (-n).toNat else renderNat n.toNat

/-- Value of a digit string, most significant first. -/
def digitsVal (cs : List Char) : Nat :=
  cs.foldl (fun a c => a * 10 + (c.toNat - 48)) 0

/-- Parse a nonempty all-digit character list. -/
def digitsToNat? (cs : List Char) : Option Nat :=
  if cs ≠ [] ∧ cs.all (·.isDigit) then some (digitsVal cs) else none

/-- JS `Number(string)` restricted to integer literals: the empty string is
0, an optionally signed run of digits is its value, anything else is NaN
(`none`). Whitespace trimming, float and hex literals are outside the
modeled fragment. -/
def strToInt? (s : String) : Option Int :=
  match s.data with
  | [] => some 0
  | c :: rest =>
    if c = '-' then (digitsToNat? rest).map (fun n => -(n : Int))
    else if c = '+' then (digitsToNat? rest).map (fun n => (n : Int))
    else (digitsToNat? (c :: rest)).map (fun n => (n : Int))

/-! ### JS numeric coercion of record fields, and id allocation -/

/-- JS unary `+` coercion restricted to the modeled value domain; `none`
is NaN. Arrays and nested objects are modeled as NaN (record ids are
scalars in every collection this store writes). -/
def jsToNumber : Option JVal → Option Int
  | none => none
  | some .null => some 0
  | some (.bool b) => some (if b then 1 else 0)
  | some (.num n) => some n
  | some (.str s) => strToInt? s
  | some (.arr _) => none
  | some (.obj _) => none

/-- The number contributed by one record to `Math.max`, that is the JS
expression `+x.id || 0` (NaN is replaced by 0; a 0 value also yields 0). -/
def idNum (x : Record) : Int :=
  match jsToNumber (getField x "id") with
  | some n => n
  | none => 0

/-- `Math.max(0, ...arr.map(x => +x.id || 0))`. -/
def maxIds (arr : List Record) : Int :=
  arr.foldl (fun m x => max m (idNum x)) 0

/-! ### The remote blob store state and the SDK operations

The GitHub contents API underneath `request` is modeled as an explicit
state: a map from collection name (standing for the blob path
`basePath/collection.json`) to a blob holding the decoded record array
plus its sha. `shaCtr` mints fresh sha tokens, `uidCtr` models
`crypto.randomUUID()` as an injective fresh-token source, and
`reads`/`puts` count GET and PUT requests. `readFault` injects a
transport failure into reads (any error other than the 404 / empty-repo
classes that `get` recovers from). -/

/-- One stored collection blob: decoded JSON array plus content sha. -/
structure Blob where
  content : List Record
  sha : Nat
deriving DecidableEq

/-- Per-collection schema definition (types are advisory and unchecked). -/
structure SchemaDef where
  required : Option (List String) := none
  types : Option (List (String × String)) := none
  defaults : Option Record := none
deriving DecidableEq

/-- One audit log entry `{action, data, timestamp}`. -/
structure AuditEntry where
  action : String
  data : Record
  timestamp : Nat
deriving DecidableEq

/-- Errors surfaced by the SDK operations. `validation` carries the
collection name and the missing field of the thrown message
(`Required field ... is missing in ...`); `transport` is any propagated
request failure; `conflict` is a PUT rejected by the store. -/
inductive Err where
  | validation (collection field : String)
  | transport (msg : String)
  | conflict (msg : String)
deriving DecidableEq

/-- The whole observable state: remote store plus SDK instance state. -/
structure DB where
  store : List (String × Blob) := []
  schemas : List (String × SchemaDef) := []
  shaCtr : Nat := 1
  uidCtr : Nat := 0
  auditLog : List (String × AuditEntry) := []
  now : Nat := 0
  reads : Nat := 0
  puts : Nat := 0
  readFault : Option String := none
deriving DecidableEq

/-- Case-exact association lookup on the store. -/
def lookupStore : List (String × Blob) → String → Option Blob
  | [], _ => none
  | (n, b) :: r, c => if n = c then some b else lookupStore r c

/-- Store update / creation at a path. -/
def setStore : List (String × Blob) → String → Blob → List (String × Blob)
  | [], c, b => [(c, b)]
  | (n, b') :: r, c, b => if n = c then (c, b) :: r else (n, b') :: setStore r c b

/-- Decoded content currently stored for a collection (empty if absent). -/
def currentContent (db : DB) (c : String) : List Record :=
  match lookupStore db.store c with
  | some b => b.content
  | none => []

/-- Schema registered for a collection. -/
def lookupSchema : List (String × SchemaDef) → String → Option SchemaDef
  | [], _ => none
  | (n, s) :: r, c => if n = c then some s else lookupSchema r c

/-- Result of one `request` GET of a blob. -/
inductive ReadRes where
  | ok (b : Blob)
  | notFound
  | fault (msg : String)

/-- A GET of the collection blob: the injected transport fault if any,
otherwise the blob or a 404. -/
def readBlobRes (db : DB) (c : String) : ReadRes :=
  match db.readFault with
  | some e => .fault e
  | none =>
    match lookupStore db.store c with
    | some b => .ok b
    | none => .notFound

/-- The uuid minted for counter value `n` (`crypto.randomUUID()` modeled
as an injective fresh token). -/
def uidString (n : Nat) : String := "uuid-" ++ renderNat n

/-- The head GET inside `save`, which fetches the sha to send with the
PUT; its try/catch swallows every failure into `none`. -/
def saveHeadSha (db : DB) (c : String) : Option Nat :=
  match readBlobRes db c with
  | .ok b => some b.sha
  | _ => none

/-- A PUT against the contents API: with a matching expected sha it
replaces the blob (fresh sha), with no expected sha it creates the blob;
a stale or missing-but-required sha is rejected. -/
def putBlob (db : DB) (c : String) (data : List Record) (expected : Option Nat) :
    DB × Option Err :=
  let db1 := { db with puts := db.puts + 1 }
  match lookupStore db1.store c, expected with
  | some b, some sha =>
    if b.sha = sha then
      ({ db1 with store := setStore db1.store c ⟨data, db1.shaCtr⟩,
                  shaCtr := db1.shaCtr + 1 }, none)
    else (db1, some (.conflict "expected sha does not match"))
  | some _, none => (db1, some (.conflict "sha required for existing path"))
  | none, some _ => (db1, some (.conflict "expected sha on missing path"))
  | none, none =>
    ({ db1 with store := setStore db1.store c ⟨data, db1.shaCtr⟩,
                shaCtr := db1.shaCtr + 1 }, none)

/-- `save`: a head GET for the current sha (failures swallowed), then a
PUT carrying that sha when one was obtained. -/
def saveOp (db : DB) (c : String) (data : List Record) : DB × Option Err :=
  let db1 := { db with reads := db.reads + 1 }
  putBlob db1 c data (saveHeadSha db1 c)

/-- `get`: GET and decode the blob; on a 404 / empty-repo failure, lazily
create the collection as an empty array (`initializeCollection`, whose
own save failures are swallowed) and return `[]`; any other failure
propagates. -/
def getOp (db : DB) (c : String) : DB × Except Err (List Record) :=
  let db1 := { db with reads := db.reads + 1 }
  match readBlobRes db1 c with
  | .ok b => (db1, .ok b.content)
  | .notFound =>
    let (db2, _) := saveOp db1 c []
    (db2, .ok [])
  | .fault e => (db1, .error (.transport e))

/-- Append an audit entry for a collection. -/
def auditAdd (db : DB) (c : String) (data : Record) (action : String) : DB :=
  { db with auditLog := db.auditLog ++ [(c, ⟨action, data, db.now⟩)] }

/-- Merge schema defaults under the item (`{ ...defaults, ...item }`)
when the schema declares defaults. -/
def applyDefaults (schema : Option SchemaDef) (item : Record) : Record :=
  match schema with
  | some s =>
    match s.defaults with
    | some d => spread d item
    | none => item
  | none => item

/-- True when a field value fails the required-field check: absent,
undefined or null. -/
def isMissing : Option JVal → Bool
  | none => true
  | some .null => true
  | _ => false

/-- `validateSchema`: the first required field that is missing on the
item, if any (no schema or no required list validates trivially). -/
def validateRec (schema : Option SchemaDef) (item : Record) : Option String :=
  match schema with
  | none => none
  | some s =>
    match s.required with
    | none => none
    | some req => req.find? (fun f => isMissing (getField item f))

/-- `insert`: fetch, merge defaults, validate, allocate
`max(existing ids, 0) + 1` as the id, mint a uuid, build
`{uid, id, ...item}`, append, save, audit. -/
def insertOp (db : DB) (c : String) (item : Record) : DB × Except Err Record :=
  match getOp db c with
  | (db1, .error e) => (db1, .error e)
  | (db1, .ok arr) =>
    let schema := lookupSchema db1.schemas c
    let item1 := applyDefaults schema item
    match validateRec schema item1 with
    | some f => (db1, .error (.validation c f))
    | none =>
      let idStr := renderInt (maxIds arr + 1)
      let uid := uidString db1.uidCtr
      let db2 := { db1 with uidCtr := db1.uidCtr + 1 }
      let newItem := spread [("uid", JVal.str uid), ("id", JVal.str idStr)] item1
      match saveOp db2 c (arr ++ [newItem]) with
      | (db3, some e) => (db3, .error e)
      | (db3, none) => (auditAdd db3 c newItem "insert", .ok newItem)

/-- The per-item loop of `bulkInsert`: defaults, validation (a failure
aborts the whole call before any save), uuid mint, id from the running
`nextId` counter, append to both the working array and the results. -/
def bulkLoop (c : String) (schema : Option SchemaDef) :
    List Record → List Record → Int → DB → DB × Except Err (List Record × List Record)
  | [], arr, _, db => (db, .ok (arr, []))
  | item :: rest, arr, nextId, db =>
    let item1 := applyDefaults schema item
    match validateRec schema item1 with
    | some f => (db, .error (.validation c f))
    | none =>
      let uid := uidString db.uidCtr
      let db1 := { db with uidCtr := db.uidCtr + 1 }
      let newItem := spread [("uid", JVal.str uid), ("id", JVal.str (renderInt nextId))] item1
      match bulkLoop c schema rest (arr ++ [newItem]) (nextId + 1) db1 with
      | (db2, .ok (arrF, results)) => (db2, .ok (arrF, newItem :: results))
      | (db2, .error e) => (db2, .error e)

/-- `bulkInsert`: one fetch, the whole loop against that snapshot with a
running id counter starting at `max(existing ids, 0) + 1`, then one save
of the extended array; no audit entries. -/
def bulkInsertOp (db : DB) (c : String) (items : List Record) :
    DB × Except Err (List Record) :=
  match getOp db c with
  | (db1, .error e) => (db1, .error e)
  | (db1, .ok arr) =>
    let schema := lookupSchema db1.schemas c
    match bulkLoop c schema items arr (maxIds arr + 1) db1 with
    | (db2, .error e) => (db2, .error e)
    | (db2, .ok (arrF, results)) =>
      match saveOp db2 c arrF with
      | (db3, some e) => (db3, .error e)
      | (db3, none) => (db3, .ok results)

/-- JS strict equality of a field value against a string key:
`x.id === key` is true exactly when the field holds that string. -/
def isStrEq : Option JVal → String → Bool
  | some (.str s), key => s == key
  | _, _ => false

/-- The lookup predicate `x.id === key || x.uid === key`. -/
def matchesKey (x : Record) (key : String) : Bool :=
  isStrEq (getField x "id") key || isStrEq (getField x "uid") key

/-- `findIndex` with the match predicate (`none` models -1). -/
def findMatchIdx : List Record → String → Option Nat
  | [], _ => none
  | x :: xs, key =>
    if matchesKey x key then some 0 else (findMatchIdx xs key).map (· + 1)

/-- The part of `update` after its fetch: locate the record, shallow-merge
the patch over it, save the modified array, audit, return the merged
record; an absent key returns the null sentinel with no write. Keeping
this phase separate makes the interleaving of a concurrent writer between
the fetch and the write expressible. -/
def updateCommit (db : DB) (c : String) (arr : List Record) (key : String)
    (patch : Record) : DB × Except Err (Option Record) :=
  match findMatchIdx arr key with
  | none => (db, .ok none)
  | some i =>
    let merged := spread (arr.getD i []) patch
    match saveOp db c (arr.set i merged) with
    | (db1, some e) => (db1, .error e)
    | (db1, none) => (auditAdd db1 c merged "update", .ok (some merged))

/-- `update` = fetch, then the commit phase. -/
def updateOp (db : DB) (c : String) (key : String) (patch : Record) :
    DB × Except Err (Option Record) :=
  match getOp db c with
  | (db1, .error e) => (db1, .error e)
  | (db1, .ok arr) => updateCommit db1 c arr key patch

/-- `delete`: fetch, locate, splice out the match, save, audit the removed
record, return true; an absent key returns false with no write. -/
def deleteOp (db : DB) (c : String) (key : String) : DB × Except Err Bool :=
  match getOp db c with
  | (db1, .error e) => (db1, .error e)
  | (db1, .ok arr) =>
    match findMatchIdx arr key with
    | none => (db1, .ok false)
    | some i =>
      let deleted := arr.getD i []
      match saveOp db1 c (arr.eraseIdx i) with
      | (db2, some e) => (db2, .error e)
      | (db2, none) => (auditAdd db2 c deleted "delete", .ok true)

/-! ### The query builder

`queryBuilder` captures `let query = this.get(collection)` — the fetch
promise is created eagerly, at builder creation — plus mutable closure
state (filters, sortField/sortDir, projectionFields). Each chain call
mutates the receiver and returns `this.queryBuilder(collection)`, a brand
new builder (with its own fresh fetch and empty state). `exec` awaits the
captured promise (the snapshot taken at creation) and applies
filters, then sort, then projection. -/

/-- Sort direction. -/
inductive Dir where
  | asc
  | desc
deriving DecidableEq

/-- JS `>` on two field values (absent fields are `undefined`, whose
comparisons are all false). Only same-type number and string comparisons
are modeled; mixed comparisons behave as incomparable (NaN). -/
def jsGt : Option JVal → Option JVal → Bool
  | some (.num a), some (.num b) => b < a
  | some (.str a), some (.str b) => b < a
  | _, _ => false

/-- The comparator the code passes to `Array.prototype.sort`:
ascending is `a > b ? 1 : a < b ? -1 : 0`, descending the reverse. -/
def sortCmp (field : String) (dir : Dir) (a b : Record) : Int :=
  let av := getField a field
  let bv := getField b field
  match dir with
  | .asc => if jsGt av bv then 1 else if jsGt bv av then -1 else 0
  | .desc => if jsGt bv av then 1 else if jsGt av bv then -1 else 0

/-- Insert `x` after every element it does not strictly precede
(stable insertion). -/
def insSorted (le : Record → Record → Bool) (x : Record) : List Record → List Record
  | [] => [x]
  | y :: ys => if le y x then y :: insSorted le x ys else x :: y :: ys

/-- Stable sort implementing the comparator contract of
`Array.prototype.sort`. -/
def jsSort (field : String) (dir : Dir) (rs : List Record) : List Record :=
  rs.foldl (fun acc x => insSorted (fun a b => sortCmp field dir a b ≤ 0) x acc) []

/-- Projection of one record onto an allowlist of fields
(`projected[field] = item[field]`; a field absent from the item is
dropped, matching the JSON-observable result). -/
def projectFields (fields : List String) (item : Record) : Record :=
  fields.foldl
    (fun acc f =>
      match getField item f with
      | some v => setField acc f v
      | none => acc) []

/-- The closure state of one builder returned by `queryBuilder`. -/
structure QB where
  snapshot : Except Err (List Record)
  filters : List (Record → Bool)
  sortField : Option String
  sortDir : Dir
  projection : Option (List String)

/-- `queryBuilder(collection)`: eagerly starts the fetch and returns a
builder with empty filter/sort/projection state. -/
def queryBuilder (db : DB) (c : String) : QB × DB :=
  let (db1, q) := getOp db c
  (⟨q, [], none, .asc, none⟩, db1)

/-- `where(fn)`: pushes the predicate onto the receiver, then returns
`this.queryBuilder(collection)` — a fresh builder. The triple is
(mutated receiver, returned builder, state). -/
def QB.whereCall (b : QB) (f : Record → Bool) (db : DB) (c : String) : QB × QB × DB :=
  let b' := { b with filters := b.filters ++ [f] }
  let (fresh, db1) := queryBuilder db c
  (b', fresh, db1)

/-- `sort(field, dir)`: records the sort key on the receiver, then
returns a fresh builder. -/
def QB.sortCall (b : QB) (field : String) (dir : Dir) (db : DB) (c : String) :
    QB × QB × DB :=
  let b' := { b with sortField := some field, sortDir := dir }
  let (fresh, db1) := queryBuilder db c
  (b', fresh, db1)

/-- `project(fields)`: records the projection on the receiver, then
returns a fresh builder. -/
def QB.projectCall (b : QB) (fields : List String) (db : DB) (c : String) :
    QB × QB × DB :=
  let b' := { b with projection := some fields }
  let (fresh, db1) := queryBuilder db c
  (b', fresh, db1)

/-- `exec()`: awaits the snapshot captured at builder creation (no new
fetch), then applies each filter, then the sort when `sortField` is
truthy, then the projection when set. -/
def QB.exec (b : QB) : Except Err (List Record) :=
  match b.snapshot with
  | .error e => .error e
  | .ok rs =>
    let r1 := b.filters.foldl (fun acc f => acc.filter f) rs
    let r2 :=
      match b.sortField with
      | some f => if f = "" then r1 else jsSort f b.sortDir r1
      | none => r1
    let r3 :=
      match b.projection with
      | some fs => r2.map (fun item => projectFields fs item)
      | none => r2
    .ok r3

/-- The record `{uid: crypto.randomUUID(), id, ...item}` built by insert
and bulkInsert, with `uidN` the uuid counter value and `nextId` the
allocated numeric id. -/
def mintedRecord (uidN : Nat) (nextId : Int) (item1 : Record) : Record :=
  spread [("uid", JVal.str (uidString uidN)), ("id", JVal.str (renderInt nextId))] item1

/-- Closed form of the records built by the bulkInsert loop: one minted
record per input item, ids counting up from `nextId` and uuid counter
values counting up from `u`. -/
def mkBulk (schema : Option SchemaDef) : List Record → Int → Nat → List Record
  | [], _, _ => []
  | item :: rest, nextId, u =>
    mintedRecord u nextId (applyDefaults schema item) :: mkBulk schema rest (nextId + 1) (u + 1)

/-! ### Concrete fixtures used by witness and counterexample theorems -/

/-- A record with id 1 and a payload field. -/
def recOne : Record := [("uid", JVal.str "u0"), ("id", JVal.str "1"), ("x", JVal.num 0)]

/-- A store holding one collection `c` with the single record `recOne`. -/
def dbOne : DB := { store := [("c", ⟨[recOne], 1⟩)], shaCtr := 2 }

/-- A completely empty store. -/
def dbEmpty : DB := {}

/-- A store whose reads fail with a transport error. -/
def dbFault : DB := { readFault := some "rate limited" }

/-- A store with a schema requiring `email` on `users`, no blob yet. -/
def dbSchema : DB := { schemas := [("users", { required := some ["email"] })] }

/-- The same schema, with an existing empty `users` blob. -/
def dbSchemaUsers : DB :=
  { schemas := [("users", { required := some ["email"] })],
    store := [("users", ⟨[], 1⟩)], shaCtr := 2 }

/-- Query fixture record with field a = 3. -/
def recA3 : Record := [("a", JVal.num 3)]

/-- Query fixture record with field a = 1. -/
def recA1 : Record := [("a", JVal.num 1)]

/-- Query fixture record with field a = 2. -/
def recA2 : Record := [("a", JVal.num 2)]

/-- A store with collection `q` holding a = 3, 1, 2 in that order. -/
def dbQ3 : DB := { store := [("q", ⟨[recA3, recA1, recA2], 1⟩)], shaCtr := 2 }

/-- A store with collection `q` holding the single record a = 1. -/
def dbQ1 : DB := { store := [("q", ⟨[recA1], 1⟩)], shaCtr := 2 }

/-- A record holding a nested object, for the shallow-merge witness. -/
def recNest : Record :=
  [("uid", JVal.str "u0"), ("id", JVal.str "1"),
   ("meta", JVal.obj (JValObj.cons "a" (JVal.num 1)
     (JValObj.cons "b" (JVal.num 2) JValObj.nil)))]

/-- A store with collection `c` holding the nested record. -/
def dbNest : DB := { store := [("c", ⟨[recNest], 1⟩)], shaCtr := 2 }

theorem getField_setField_same (r : Record) (k : String) (v : JVal) :
    getField (setField r k v) k = some v := by
  induction r with
  | nil => simp [setField, getField]
  | cons p r ih =>
    by_cases h : p.1 = k
    · simp [setField, h, getField]
    · simp [setField, h, getField, ih]

theorem getField_setField_ne (r : Record) (k k' : String) (v : JVal) (h : k ≠ k') :
    getField (setField r k v) k' = getField r k' := by
  induction r with
  | nil => simp [setField, getField, h]
  | cons p r ih =>
    by_cases hp : p.1 = k
    · simp [setField, hp, getField, h, hp ▸ h]
    · simp [setField, hp, getField, ih]

/-- When `ext` does not define `k`, spreading leaves `k` untouched. -/
theorem getField_spread_of_not_mem (base ext : Record) (k : String)
    (h : getField ext k = none) :
    getField (spread base ext) k = getField base k := by
  induction ext generalizing base with
  | nil => simp [spread]
  | cons p ext ih =>
    have hp : p.1 ≠ k := by
      intro hk
      simp [getField, hk] at h
    have htail : getField ext k = none := by
      simpa [getField, hp] using h
    have : spread base (p :: ext) = spread (setField base p.1 p.2) ext := by
      simp [spread]
    rw [this, ih _ htail, getField_setField_ne _ _ _ _ hp]

/-- A key absent from the key list is not found by `getField`. -/
theorem getField_eq_none_of_not_mem (r : Record) (k : String)
    (h : k ∉ r.map Prod.fst) : getField r k = none := by
  induction r with
  | nil => simp [getField]
  | cons p r ih =>
    have hp : p.1 ≠ k := by
      intro hk
      exact h (by simp [hk])
    have : k ∉ r.map Prod.fst := by
      intro hm
      exact h (by simp [hm])
    simp [getField, hp, ih this]

/-- When `ext` defines `k` (and has no duplicate keys), spreading installs
the value from `ext`. -/
theorem getField_spread_of_mem (base ext : Record) (k : String) (v : JVal)
    (hnd : (ext.map Prod.fst).Nodup) (h : getField ext k = some v) :
    getField (spread base ext) k = some v := by
  induction ext generalizing base with
  | nil => simp [getField] at h
  | cons p ext ih =>
    have hstep : spread base (p :: ext) = spread (setField base p.1 p.2) ext := by
      simp [spread]
    rw [hstep]
    rcases List.nodup_cons.mp hnd with ⟨hnotin, hndtail⟩
    by_cases hp : p.1 = k
    · have hv : p.2 = v := by simpa [getField, hp] using h
      have hknotin : getField ext k = none :=
        getField_eq_none_of_not_mem _ _ (hp ▸ hnotin)
      rw [getField_spread_of_not_mem _ _ _ hknotin, hp, getField_setField_same]
      exact congrArg some hv
    · have htail : getField ext k = some v := by
        simpa [getField, hp] using h
      exact ih (setField base p.1 p.2) hndtail htail

theorem digitChar_toNat (d : Nat) (h : d < 10) : (digitChar d).toNat = 48 + d := by
  interval_cases d <;> rfl

theorem digitChar_isDigit (d : Nat) (h : d < 10) : (digitChar d).isDigit = true := by
  interval_cases d <;> rfl

theorem digitsVal_append_singleton (l : List Char) (c : Char) :
    digitsVal (l ++ [c]) = digitsVal l * 10 + (c.toNat - 48) := by
  simp [digitsVal, List.foldl_append]

theorem toDigitsAux_spec (fuel n : Nat) (h : n < fuel) :
    toDigitsAux fuel n ≠ [] ∧ (toDigitsAux fuel n).all (·.isDigit) = true ∧
      digitsVal (toDigitsAux fuel n) = n := by
  induction fuel generalizing n with
  | zero => omega
  | succ fuel ih =>
    by_cases hn : n < 10
    · refine ⟨by simp [toDigitsAux, hn], ?_, ?_⟩
      · simp [toDigitsAux, hn, digitChar_isDigit n hn]
      · simp [toDigitsAux, hn, digitsVal, digitChar_toNat n hn]
    · have hdiv : n / 10 < fuel := by
        have h1 : n / 10 < n := Nat.div_lt_self (by omega) (by omega)
        omega
      obtain ⟨_, hall, hval⟩ := ih (n / 10) hdiv
      have hm : n % 10 < 10 := Nat.mod_lt _ (by omega)
      refine ⟨by simp [toDigitsAux, hn], ?_, ?_⟩
      · simp [toDigitsAux, hn, List.all_append, hall, digitChar_isDigit _ hm]
      · rw [toDigitsAux]
        simp only [hn, if_false, digitsVal_append_singleton, hval, digitChar_toNat _ hm]
        omega

theorem toDigits_ne_nil (n : Nat) : toDigits n ≠ [] :=
  (toDigitsAux_spec (n + 1) n (by omega)).1

theorem toDigits_all_digit (n : Nat) : (toDigits n).all (·.isDigit) = true :=
  (toDigitsAux_spec (n + 1) n (by omega)).2.1

theorem digitsVal_toDigits (n : Nat) : digitsVal (toDigits n) = n :=
  (toDigitsAux_spec (n + 1) n (by omega)).2.2

theorem strToInt?_renderNat (n : Nat) : strToInt? (renderNat n) = some (n : Int) := by
  have hne := toDigits_ne_nil n
  have hall := toDigits_all_digit n
  have hval := digitsVal_toDigits n
  have hdata : (renderNat n).data = toDigits n := rfl
  rcases hcs : toDigits n with _ | ⟨c, rest⟩
  · exact absurd hcs hne
  · have hcdig : c.isDigit = true := by
      rw [hcs] at hall
      simp [List.all_cons] at hall
      exact hall.1
    have hcne1 : c ≠ '-' := by
      intro hc
      rw [hc] at hcdig
      simp [Char.isDigit] at hcdig
    have hcne2 : c ≠ '+' := by
      intro hc
      rw [hc] at hcdig
      simp [Char.isDigit] at hcdig
    rw [strToInt?, hdata, hcs]
    simp only [hcne1, hcne2, if_false]
    rw [digitsToNat?]
    rw [hcs] at hall hval
    rw [if_pos ⟨by simp, hall⟩, hval]
    simp

theorem strToInt?_renderInt_nonneg (n : Int) (h : 0 ≤ n) :
    strToInt? (renderInt n) = some n := by
  rw [renderInt, if_neg (by omega)]
  rw [strToInt?_renderNat n.toNat]
  congr 1
  omega

theorem foldl_max_init_le (arr : List Record) (init : Int) :
    init ≤ arr.foldl (fun m x => max m (idNum x)) init := by
  induction arr generalizing init with
  | nil => exact le_refl _
  | cons a l ih =>
    calc init ≤ max init (idNum a) := le_max_left _ _
    _ ≤ _ := ih _

theorem maxIds_nonneg (arr : List Record) : 0 ≤ maxIds arr :=
  foldl_max_init_le arr 0

theorem idNum_le_foldl (arr : List Record) (init : Int) (x : Record) (h : x ∈ arr) :
    idNum x ≤ arr.foldl (fun m x => max m (idNum x)) init := by
  induction arr generalizing init with
  | nil => simp at h
  | cons a l ih =>
    rcases List.mem_cons.mp h with rfl | hmem
    · calc idNum x ≤ max init (idNum x) := le_max_right _ _
      _ ≤ _ := foldl_max_init_le _ _
    · exact ih _ hmem

theorem idNum_le_maxIds (arr : List Record) (x : Record) (h : x ∈ arr) :
    idNum x ≤ maxIds arr :=
  idNum_le_foldl arr 0 x h

/-- The freshly rendered id `renderInt (maxIds arr + 1)` differs from the
id value of every record already in `arr`. -/
theorem getField_ne_next_id (arr : List Record) (x : Record) (h : x ∈ arr) :
    getField x "id" ≠ some (JVal.str (renderInt (maxIds arr + 1))) := by
  intro hid
  have hle : idNum x ≤ maxIds arr := idNum_le_maxIds arr x h
  have : idNum x = maxIds arr + 1 := by
    rw [idNum, hid, jsToNumber,
      strToInt?_renderInt_nonneg _ (by have := maxIds_nonneg arr; omega)]
  omega

theorem lookupStore_setStore_same (s : List (String × Blob)) (c : String) (b : Blob) :
    lookupStore (setStore s c b) c = some b := by
  induction s with
  | nil => simp [setStore, lookupStore]
  | cons p r ih =>
    by_cases h : p.1 = c
    · simp [setStore, h, lookupStore]
    · simp [setStore, h, lookupStore, ih]

/-! ### Characterization lemmas for the operations -/

theorem getOp_found (db : DB) (c : String) (b : Blob)
    (hf : db.readFault = none) (hl : lookupStore db.store c = some b) :
    getOp db c = ({ db with reads := db.reads + 1 }, .ok b.content) := by
  simp [getOp, readBlobRes, hf, hl]

theorem getOp_missing (db : DB) (c : String)
    (hf : db.readFault = none) (hl : lookupStore db.store c = none) :
    getOp db c =
      ({ db with reads := db.reads + 2, puts := db.puts + 1,
                 shaCtr := db.shaCtr + 1,
                 store := setStore db.store c ⟨[], db.shaCtr⟩ }, .ok []) := by
  simp [getOp, readBlobRes, saveOp, saveHeadSha, putBlob, hf, hl]

theorem getOp_fault (db : DB) (c : String) (e : String)
    (hf : db.readFault = some e) :
    getOp db c = ({ db with reads := db.reads + 1 }, .error (.transport e)) := by
  simp [getOp, readBlobRes, hf]

theorem saveOp_found (db : DB) (c : String) (data : List Record) (b : Blob)
    (hf : db.readFault = none) (hl : lookupStore db.store c = some b) :
    saveOp db c data =
      ({ db with reads := db.reads + 1, puts := db.puts + 1,
                 shaCtr := db.shaCtr + 1,
                 store := setStore db.store c ⟨data, db.shaCtr⟩ }, none) := by
  simp [saveOp, saveHeadSha, readBlobRes, putBlob, hf, hl]

theorem setStore_setStore_same (s : List (String × Blob)) (c : String) (b b' : Blob) :
    setStore (setStore s c b) c b' = setStore s c b' := by
  induction s with
  | nil => simp [setStore]
  | cons p r ih =>
    by_cases h : p.1 = c
    · simp [setStore, h]
    · simp [setStore, h, ih]

theorem insertOp_found (db : DB) (c : String) (item : Record) (b : Blob)
    (hf : db.readFault = none) (hl : lookupStore db.store c = some b)
    (hv : validateRec (lookupSchema db.schemas c)
            (applyDefaults (lookupSchema db.schemas c) item) = none) :
    insertOp db c item =
      (auditAdd
        { db with reads := db.reads + 2, puts := db.puts + 1,
                  shaCtr := db.shaCtr + 1, uidCtr := db.uidCtr + 1,
                  store := setStore db.store c
                    ⟨b.content ++ [mintedRecord db.uidCtr (maxIds b.content + 1)
                        (applyDefaults (lookupSchema db.schemas c) item)], db.shaCtr⟩ }
        c (mintedRecord db.uidCtr (maxIds b.content + 1)
            (applyDefaults (lookupSchema db.schemas c) item)) "insert",
       .ok (mintedRecord db.uidCtr (maxIds b.content + 1)
            (applyDefaults (lookupSchema db.schemas c) item))) := by
  simp [insertOp, getOp, readBlobRes, saveOp, saveHeadSha, putBlob, hf, hl, hv,
    mintedRecord]

theorem insertOp_missing (db : DB) (c : String) (item : Record)
    (hf : db.readFault = none) (hl : lookupStore db.store c = none)
    (hv : validateRec (lookupSchema db.schemas c)
            (applyDefaults (lookupSchema db.schemas c) item) = none) :
    insertOp db c item =
      (auditAdd
        { db with reads := db.reads + 3, puts := db.puts + 2,
                  shaCtr := db.shaCtr + 2, uidCtr := db.uidCtr + 1,
                  store := setStore db.store c
                    ⟨[mintedRecord db.uidCtr 1
                        (applyDefaults (lookupSchema db.schemas c) item)], db.shaCtr + 1⟩ }
        c (mintedRecord db.uidCtr 1
            (applyDefaults (lookupSchema db.schemas c) item)) "insert",
       .ok (mintedRecord db.uidCtr 1
            (applyDefaults (lookupSchema db.schemas c) item))) := by
  simp [insertOp, getOp, readBlobRes, saveOp, saveHeadSha, putBlob, hf, hl, hv,
    mintedRecord, maxIds, lookupStore_setStore_same, setStore_setStore_same]

theorem insertOp_invalid_found (db : DB) (c : String) (item : Record) (b : Blob) (f : String)
    (hf : db.readFault = none) (hl : lookupStore db.store c = some b)
    (hv : validateRec (lookupSchema db.schemas c)
            (applyDefaults (lookupSchema db.schemas c) item) = some f) :
    insertOp db c item = ({ db with reads := db.reads + 1 }, .error (.validation c f)) := by
  rw [insertOp, getOp_found db c b hf hl]
  simp only [hv]

theorem insertOp_invalid_missing (db : DB) (c : String) (item : Record) (f : String)
    (hf : db.readFault = none) (hl : lookupStore db.store c = none)
    (hv : validateRec (lookupSchema db.schemas c)
            (applyDefaults (lookupSchema db.schemas c) item) = some f) :
    insertOp db c item =
      ({ db with reads := db.reads + 2, puts := db.puts + 1,
                 shaCtr := db.shaCtr + 1,
                 store := setStore db.store c ⟨[], db.shaCtr⟩ },
       .error (.validation c f)) := by
  rw [insertOp, getOp_missing db c hf hl]
  simp only [hv]

theorem mkBulk_length (schema : Option SchemaDef) (items : List Record)
    (nextId : Int) (u : Nat) : (mkBulk schema items nextId u).length = items.length := by
  induction items generalizing nextId u with
  | nil => rfl
  | cons item rest ih => simp [mkBulk, ih]

theorem mkBulk_getD (schema : Option SchemaDef) (items : List Record)
    (nextId : Int) (u : Nat) (j : Nat) (hj : j < items.length) :
    (mkBulk schema items nextId u).getD j [] =
      mintedRecord (u + j) (nextId + j) (applyDefaults schema (items.getD j [])) := by
  induction items generalizing nextId u j with
  | nil => simp at hj
  | cons item rest ih =>
    cases j with
    | zero => simp [mkBulk, mintedRecord]
    | succ j =>
      have hj' : j < rest.length := by simpa using hj
      have h1 := ih (nextId + 1) (u + 1) j hj'
      have e1 : u + (j + 1) = u + 1 + j := by omega
      have e2 : nextId + ((j + 1 : Nat) : Int) = nextId + 1 + (j : Int) := by
        push_cast
        ring
      simp only [mkBulk, List.getD_cons_succ, h1, e1, e2]

theorem bulkLoop_ok (c : String) (schema : Option SchemaDef) (items arr : List Record)
    (nextId : Int) (db : DB)
    (hval : ∀ it ∈ items, validateRec schema (applyDefaults schema it) = none) :
    bulkLoop c schema items arr nextId db =
      ({ db with uidCtr := db.uidCtr + items.length },
       .ok (arr ++ mkBulk schema items nextId db.uidCtr,
            mkBulk schema items nextId db.uidCtr)) := by
  induction items generalizing arr nextId db with
  | nil => simp [bulkLoop, mkBulk]
  | cons item rest ih =>
    have hv := hval item (by simp)
    have hrest : ∀ it ∈ rest, validateRec schema (applyDefaults schema it) = none :=
      fun it hit => hval it (by simp [hit])
    rw [bulkLoop]
    simp only [hv]
    rw [ih _ _ _ hrest]
    simp [mkBulk, mintedRecord, List.append_assoc]
    omega

theorem bulkLoop_invalid (c : String) (schema : Option SchemaDef)
    (pre : List Record) (bad : Record) (rest arr : List Record)
    (nextId : Int) (db : DB) (f : String)
    (hpre : ∀ it ∈ pre, validateRec schema (applyDefaults schema it) = none)
    (hbad : validateRec schema (applyDefaults schema bad) = some f) :
    bulkLoop c schema (pre ++ bad :: rest) arr nextId db =
      ({ db with uidCtr := db.uidCtr + pre.length }, .error (.validation c f)) := by
  induction pre generalizing arr nextId db with
  | nil => simp [bulkLoop, hbad]
  | cons item pre ih =>
    have hv := hpre item (by simp)
    have hpre' : ∀ it ∈ pre, validateRec schema (applyDefaults schema it) = none :=
      fun it hit => hpre it (by simp [hit])
    rw [List.cons_append, bulkLoop]
    simp only [hv]
    rw [ih _ _ _ hpre']
    simp
    omega

theorem bulkInsertOp_found (db : DB) (c : String) (items : List Record) (b : Blob)
    (hf : db.readFault = none) (hl : lookupStore db.store c = some b)
    (hval : ∀ it ∈ items,
      validateRec (lookupSchema db.schemas c)
        (applyDefaults (lookupSchema db.schemas c) it) = none) :
    bulkInsertOp db c items =
      ({ db with reads := db.reads + 2, puts := db.puts + 1,
                 shaCtr := db.shaCtr + 1, uidCtr := db.uidCtr + items.length,
                 store := setStore db.store c
                   ⟨b.content ++ mkBulk (lookupSchema db.schemas c) items
                       (maxIds b.content + 1) db.uidCtr, db.shaCtr⟩ },
       .ok (mkBulk (lookupSchema db.schemas c) items (maxIds b.content + 1) db.uidCtr)) := by
  rw [bulkInsertOp, getOp_found db c b hf hl]
  dsimp only
  rw [bulkLoop_ok c (lookupSchema db.schemas c) items b.content (maxIds b.content + 1)
    { db with reads := db.reads + 1 } hval]
  simp [saveOp, saveHeadSha, readBlobRes, putBlob, hf, hl]

theorem updateCommit_found (db : DB) (c : String) (arr : List Record) (key : String)
    (patch : Record) (i : Nat) (b : Blob)
    (hf : db.readFault = none) (hl : lookupStore db.store c = some b)
    (hm : findMatchIdx arr key = some i) :
    updateCommit db c arr key patch =
      (auditAdd
        { db with reads := db.reads + 1, puts := db.puts + 1,
                  shaCtr := db.shaCtr + 1,
                  store := setStore db.store c
                    ⟨arr.set i (spread (arr.getD i []) patch), db.shaCtr⟩ }
        c (spread (arr.getD i []) patch) "update",
       .ok (some (spread (arr.getD i []) patch))) := by
  rw [updateCommit]
  simp only [hm]
  simp [saveOp, saveHeadSha, readBlobRes, putBlob, hf, hl]

theorem updateOp_found_match (db : DB) (c : String) (key : String) (patch : Record)
    (i : Nat) (b : Blob)
    (hf : db.readFault = none) (hl : lookupStore db.store c = some b)
    (hm : findMatchIdx b.content key = some i) :
    updateOp db c key patch =
      (auditAdd
        { db with reads := db.reads + 2, puts := db.puts + 1,
                  shaCtr := db.shaCtr + 1,
                  store := setStore db.store c
                    ⟨b.content.set i (spread (b.content.getD i []) patch), db.shaCtr⟩ }
        c (spread (b.content.getD i []) patch) "update",
       .ok (some (spread (b.content.getD i []) patch))) := by
  rw [updateOp, getOp_found db c b hf hl]
  dsimp only
  rw [updateCommit_found { db with reads := db.reads + 1 } c b.content key patch i b hf hl hm]

theorem updateOp_found_nomatch (db : DB) (c : String) (key : String) (patch : Record)
    (b : Blob)
    (hf : db.readFault = none) (hl : lookupStore db.store c = some b)
    (hm : findMatchIdx b.content key = none) :
    updateOp db c key patch = ({ db with reads := db.reads + 1 }, .ok none) := by
  rw [updateOp, getOp_found db c b hf hl]
  dsimp only
  simp only [updateCommit, hm]

theorem updateOp_missing (db : DB) (c : String) (key : String) (patch : Record)
    (hf : db.readFault = none) (hl : lookupStore db.store c = none) :
    updateOp db c key patch =
      ({ db with reads := db.reads + 2, puts := db.puts + 1,
                 shaCtr := db.shaCtr + 1,
                 store := setStore db.store c ⟨[], db.shaCtr⟩ }, .ok none) := by
  rw [updateOp, getOp_missing db c hf hl]
  dsimp only
  simp [updateCommit, findMatchIdx]

theorem deleteOp_found_nomatch (db : DB) (c : String) (key : String) (b : Blob)
    (hf : db.readFault = none) (hl : lookupStore db.store c = some b)
    (hm : findMatchIdx b.content key = none) :
    deleteOp db c key = ({ db with reads := db.reads + 1 }, .ok false) := by
  rw [deleteOp, getOp_found db c b hf hl]
  simp only [hm]

theorem deleteOp_missing (db : DB) (c : String) (key : String)
    (hf : db.readFault = none) (hl : lookupStore db.store c = none) :
    deleteOp db c key =
      ({ db with reads := db.reads + 2, puts := db.puts + 1,
                 shaCtr := db.shaCtr + 1,
                 store := setStore db.store c ⟨[], db.shaCtr⟩ }, .ok false) := by
  rw [deleteOp, getOp_missing db c hf hl]
  simp [findMatchIdx]

theorem getField_mintedRecord_id (u : Nat) (n : Int) (item1 : Record)
    (h : getField item1 "id" = none) :
    getField (mintedRecord u n item1) "id" = some (JVal.str (renderInt n)) := by
  rw [mintedRecord, getField_spread_of_not_mem _ _ _ h, getField]
  rw [if_neg (by decide), getField, if_pos rfl]

theorem getField_mintedRecord_uid (u : Nat) (n : Int) (item1 : Record)
    (h : getField item1 "uid" = none) :
    getField (mintedRecord u n item1) "uid" = some (JVal.str (uidString u)) := by
  rw [mintedRecord, getField_spread_of_not_mem _ _ _ h, getField, if_pos rfl]

theorem getField_mintedRecord_of_mem (u : Nat) (n : Int) (item1 : Record)
    (k : String) (v : JVal)
    (hnd : (item1.map Prod.fst).Nodup) (h : getField item1 k = some v) :
    getField (mintedRecord u n item1) k = some v :=
  getField_spread_of_mem _ _ _ _ hnd h

theorem getD_set_ne (l : List Record) (i j : Nat) (a : Record) (h : j ≠ i) :
    (l.set i a).getD j [] = l.getD j [] := by
  induction l generalizing i j with
  | nil => simp
  | cons x xs ih =>
    cases i with
    | zero =>
      cases j with
      | zero => omega
      | succ j => simp [List.set]
    | succ i =>
      cases j with
      | zero => simp [List.set]
      | succ j => simpa [List.set] using ih i j (by omega)

theorem getD_mem (l : List Record) (j : Nat) (h : j < l.length) : l.getD j [] ∈ l := by
  induction l generalizing j with
  | nil => simp at h
  | cons x xs ih =>
    cases j with
    | zero => simp
    | succ j =>
      simp only [List.getD_cons_succ]
      exact List.mem_cons_of_mem _ (ih j (by simpa using h))

/-! ### Claim theorems -/

/-- C6: for a collection never previously written, `get` returns an empty
sequence and leaves behind a blob at the collection path that decodes to
the empty sequence; any fetch failure other than blob absence propagates
to the caller as an error. -/
theorem get_lazy_init_and_fault_propagation :
    (∀ (db : DB) (c : String), db.readFault = none → lookupStore db.store c = none →
      getOp db c =
        ({ db with reads := db.reads + 2, puts := db.puts + 1,
                   shaCtr := db.shaCtr + 1,
                   store := setStore db.store c ⟨[], db.shaCtr⟩ }, .ok []) ∧
      lookupStore (getOp db c).1.store c = some ⟨[], db.shaCtr⟩)
    ∧ (∀ (db : DB) (c e : String), db.readFault = some e →
      getOp db c = ({ db with reads := db.reads + 1 }, .error (.transport e))) := by
  constructor
  · intro db c hf hl
    refine ⟨getOp_missing db c hf hl, ?_⟩
    rw [getOp_missing db c hf hl]
    exact lookupStore_setStore_same _ _ _
  · intro db c e hf
    exact getOp_fault db c e hf

/-- Witness for C6 at a never-written collection and at a faulted read. -/
theorem get_lazy_init_and_fault_propagation_witness :
    (getOp dbEmpty "users").2 = .ok [] ∧
    lookupStore (getOp dbEmpty "users").1.store "users" = some ⟨[], 1⟩ ∧
    (getOp dbFault "users").2 = .error (.transport "rate limited") := by
  refine ⟨?_, ?_, ?_⟩
  · rw [(get_lazy_init_and_fault_propagation.1 dbEmpty "users" rfl rfl).1]
  · exact (get_lazy_init_and_fault_propagation.1 dbEmpty "users" rfl rfl).2
  · rw [get_lazy_init_and_fault_propagation.2 dbFault "users" "rate limited" rfl]

/-- C8 counterexample: deleting an absent key from a never-written
collection returns false but does perform a write (it creates the empty
blob), contradicting the claimed absence of any write. -/
theorem delete_missing_collection_performs_write :
    (deleteOp dbEmpty "c" "1").2 = .ok false ∧
    dbEmpty.puts = 0 ∧
    (deleteOp dbEmpty "c" "1").1.puts = 1 ∧
    lookupStore dbEmpty.store "c" = none ∧
    lookupStore (deleteOp dbEmpty "c" "1").1.store "c" = some ⟨[], 1⟩ :=
  ⟨rfl, rfl, rfl, rfl, rfl⟩

/-- C8 (amended): update and delete with an unmatched key return the null
and false sentinels and no error; when the collection blob exists the
state is untouched apart from the read counter (no write, store bytes
identical); when the blob is absent the only write is the lazy
initialization of the collection to an empty sequence. -/
theorem not_found_sentinels_no_write :
    (∀ (db : DB) (c key : String) (patch : Record) (b : Blob),
      db.readFault = none → lookupStore db.store c = some b →
      findMatchIdx b.content key = none →
      updateOp db c key patch = ({ db with reads := db.reads + 1 }, .ok none) ∧
      deleteOp db c key = ({ db with reads := db.reads + 1 }, .ok false))
    ∧ (∀ (db : DB) (c key : String) (patch : Record),
      db.readFault = none → lookupStore db.store c = none →
      updateOp db c key patch =
        ({ db with reads := db.reads + 2, puts := db.puts + 1,
                   shaCtr := db.shaCtr + 1,
                   store := setStore db.store c ⟨[], db.shaCtr⟩ }, .ok none) ∧
      deleteOp db c key =
        ({ db with reads := db.reads + 2, puts := db.puts + 1,
                   shaCtr := db.shaCtr + 1,
                   store := setStore db.store c ⟨[], db.shaCtr⟩ }, .ok false)) := by
  constructor
  · intro db c key patch b hf hl hm
    exact ⟨updateOp_found_nomatch db c key patch b hf hl hm,
           deleteOp_found_nomatch db c key b hf hl hm⟩
  · intro db c key patch hf hl
    exact ⟨updateOp_missing db c key patch hf hl, deleteOp_missing db c key hf hl⟩

/-- Witness for C8 at an existing collection with an unmatched key, and
at a missing collection. -/
theorem not_found_sentinels_no_write_witness :
    (updateOp dbOne "c" "9" [("x", JVal.num 5)]
        = ({ dbOne with reads := dbOne.reads + 1 }, .ok none) ∧
      deleteOp dbOne "c" "9" = ({ dbOne with reads := dbOne.reads + 1 }, .ok false)) ∧
    (deleteOp dbEmpty "c" "9").2 = .ok false := by
  refine ⟨not_found_sentinels_no_write.1 dbOne "c" "9" [("x", JVal.num 5)]
    ⟨[recOne], 1⟩ rfl rfl (by decide), ?_⟩
  rw [(not_found_sentinels_no_write.2 dbEmpty "c" "9" [] rfl rfl).2]

/-- C1 counterexample: an update whose initial fetch observed version 1
commits after a concurrent update has moved the blob to version 2; the
write presents the freshly fetched version 2 (not the observed version
1), succeeds with no Conflict error, and silently overwrites the
concurrent change (the stored value of x reverts to the stale update). -/
theorem stale_update_commit_overwrites_silently :
    lookupStore dbOne.store "c" = some ⟨[recOne], 1⟩ ∧
    (getOp dbOne "c").2 = .ok [recOne] ∧
    lookupStore (updateOp (getOp dbOne "c").1 "c" "1" [("x", JVal.num 2)]).1.store "c"
      = some ⟨[[("uid", JVal.str "u0"), ("id", JVal.str "1"), ("x", JVal.num 2)]], 2⟩ ∧
    saveHeadSha (updateOp (getOp dbOne "c").1 "c" "1" [("x", JVal.num 2)]).1 "c"
      = some 2 ∧
    (updateCommit (updateOp (getOp dbOne "c").1 "c" "1" [("x", JVal.num 2)]).1
        "c" [recOne] "1" [("x", JVal.num 1)]).2
      = .ok (some [("uid", JVal.str "u0"), ("id", JVal.str "1"), ("x", JVal.num 1)]) ∧
    currentContent
        (updateCommit (updateOp (getOp dbOne "c").1 "c" "1" [("x", JVal.num 2)]).1
          "c" [recOne] "1" [("x", JVal.num 1)]).1 "c"
      = [[("uid", JVal.str "u0"), ("id", JVal.str "1"), ("x", JVal.num 1)]] :=
  ⟨rfl, rfl, rfl, rfl, rfl, rfl⟩

/-- C1 (amended): the conditional write presents as its precondition the
content version fetched by save immediately before the PUT, that is the
current version at write time, not the version observed by the operation
initial fetch; consequently the commit phase of an update succeeds from
any store state whose blob exists, replacing whatever was written
concurrently with data derived from the possibly stale fetched snapshot,
and no Conflict error is surfaced. -/
theorem save_presents_write_time_version :
    (∀ (db : DB) (c : String) (data : List Record) (b : Blob),
      db.readFault = none → lookupStore db.store c = some b →
      saveHeadSha db c = some b.sha ∧
      saveOp db c data =
        ({ db with reads := db.reads + 1, puts := db.puts + 1,
                   shaCtr := db.shaCtr + 1,
                   store := setStore db.store c ⟨data, db.shaCtr⟩ }, none))
    ∧ (∀ (db : DB) (c : String) (arr : List Record) (key : String) (patch : Record)
        (i : Nat) (b : Blob),
      db.readFault = none → lookupStore db.store c = some b →
      findMatchIdx arr key = some i →
      (updateCommit db c arr key patch).2
        = .ok (some (spread (arr.getD i []) patch)) ∧
      currentContent (updateCommit db c arr key patch).1 c
        = arr.set i (spread (arr.getD i []) patch)) := by
  constructor
  · intro db c data b hf hl
    refine ⟨?_, saveOp_found db c data b hf hl⟩
    simp [saveHeadSha, readBlobRes, hf, hl]
  · intro db c arr key patch i b hf hl hm
    rw [updateCommit_found db c arr key patch i b hf hl hm]
    refine ⟨rfl, ?_⟩
    simp [currentContent, auditAdd, lookupStore_setStore_same]

/-- Witness for C1 (amended): the presented version and the successful
stale commit, at a concrete store. -/
theorem save_presents_write_time_version_witness :
    (saveHeadSha dbOne "c" = some 1 ∧
      saveOp dbOne "c" [] =
        ({ dbOne with reads := dbOne.reads + 1, puts := dbOne.puts + 1,
                      shaCtr := dbOne.shaCtr + 1,
                      store := setStore dbOne.store "c" ⟨[], dbOne.shaCtr⟩ }, none)) ∧
    ((updateCommit dbOne "c" [recOne] "1" [("x", JVal.num 7)]).2
        = .ok (some (spread ([recOne].getD 0 []) [("x", JVal.num 7)])) ∧
      currentContent (updateCommit dbOne "c" [recOne] "1" [("x", JVal.num 7)]).1 "c"
        = [recOne].set 0 (spread ([recOne].getD 0 []) [("x", JVal.num 7)])) :=
  ⟨save_presents_write_time_version.1 dbOne "c" [] ⟨[recOne], 1⟩ rfl rfl,
   save_presents_write_time_version.2 dbOne "c" [recOne] "1" [("x", JVal.num 7)] 0
     ⟨[recOne], 1⟩ rfl rfl (by decide)⟩

/-- C2: each chain call returns a brand new builder, so the accumulated
state is discarded; on records with a = 3, 1, 2, the chain
sort a asc then exec yields the stored order 3, 1, 2 instead of the
claimed 1, 2, 3, and the chain where a > 1 then project a then exec
yields all three records unfiltered and unprojected instead of the
claimed two projected ones. -/
theorem chained_calls_discard_builder_state :
    QB.exec (QB.sortCall (queryBuilder dbQ3 "q").1 "a" Dir.asc
        (queryBuilder dbQ3 "q").2 "q").2.1 = .ok [recA3, recA1, recA2] ∧
    ([recA3, recA1, recA2] : List Record) ≠ [recA1, recA2, recA3] ∧
    QB.exec (QB.projectCall
        (QB.whereCall (queryBuilder dbQ3 "q").1
          (fun r => jsGt (getField r "a") (some (JVal.num 1)))
          (queryBuilder dbQ3 "q").2 "q").2.1
        ["a"]
        (QB.whereCall (queryBuilder dbQ3 "q").1
          (fun r => jsGt (getField r "a") (some (JVal.num 1)))
          (queryBuilder dbQ3 "q").2 "q").2.2 "q").2.1
      = .ok [recA3, recA1, recA2] ∧
    ([recA3, recA1, recA2] : List Record) ≠ [recA2, recA3] :=
  ⟨rfl, by decide, rfl, by decide⟩

/-- C3: the fetch happens eagerly when the builder is created (the read
counter increments before any exec is invoked), and exec replays the
snapshot captured at creation: after a concurrent write replaces the
collection contents, exec still returns the old snapshot instead of
fetching a fresh one. -/
theorem querybuilder_eager_fetch_and_cached_snapshot :
    (queryBuilder dbQ1 "q").2.reads = dbQ1.reads + 1 ∧
    (saveOp (queryBuilder dbQ1 "q").2 "q" [recA2]).2 = none ∧
    currentContent (saveOp (queryBuilder dbQ1 "q").2 "q" [recA2]).1 "q" = [recA2] ∧
    QB.exec (queryBuilder dbQ1 "q").1 = .ok [recA1] ∧
    ([recA1] : List Record) ≠ [recA2] :=
  ⟨rfl, rfl, rfl, rfl, by decide⟩

/-- C4 counterexample: an insert whose partial itself carries an id keeps
the caller id (the spread puts the partial after the minted identifiers),
so the returned id is 1 rather than the claimed 2, and afterwards two
records of the collection share the id 1. -/
theorem insert_caller_id_breaks_allocation :
    (insertOp dbOne "c" [("id", JVal.str "1")]).2
      = .ok [("uid", JVal.str "uuid-0"), ("id", JVal.str "1")] ∧
    renderInt (maxIds [recOne] + 1) = "2" ∧
    ("1" : String) ≠ "2" ∧
    currentContent (insertOp dbOne "c" [("id", JVal.str "1")]).1 "c"
      = [recOne, [("uid", JVal.str "uuid-0"), ("id", JVal.str "1")]] ∧
    getField recOne "id" = some (JVal.str "1") ∧
    getField [("uid", JVal.str "uuid-0"), ("id", JVal.str "1")] "id"
      = some (JVal.str "1") :=
  ⟨rfl, rfl, by decide, rfl, rfl, rfl⟩

/-- C4 (amended): for a valid insert whose partial, after schema
defaults, carries neither id nor uid, the returned record id is the
decimal rendering of max(existing ids parsed as integers, default 0)
plus 1, its uid is the freshly minted token, the new id differs from the
id of every record already present (so id-distinctness is preserved),
and the record is appended to the stored collection. -/
theorem insert_fresh_identifiers :
    ∀ (db : DB) (c : String) (item : Record),
      db.readFault = none →
      validateRec (lookupSchema db.schemas c)
        (applyDefaults (lookupSchema db.schemas c) item) = none →
      getField (applyDefaults (lookupSchema db.schemas c) item) "id" = none →
      getField (applyDefaults (lookupSchema db.schemas c) item) "uid" = none →
      (insertOp db c item).2 =
        .ok (mintedRecord db.uidCtr (maxIds (currentContent db c) + 1)
          (applyDefaults (lookupSchema db.schemas c) item)) ∧
      getField (mintedRecord db.uidCtr (maxIds (currentContent db c) + 1)
          (applyDefaults (lookupSchema db.schemas c) item)) "id"
        = some (JVal.str (renderInt (maxIds (currentContent db c) + 1))) ∧
      getField (mintedRecord db.uidCtr (maxIds (currentContent db c) + 1)
          (applyDefaults (lookupSchema db.schemas c) item)) "uid"
        = some (JVal.str (uidString db.uidCtr)) ∧
      (∀ r ∈ currentContent db c,
        getField r "id"
          ≠ some (JVal.str (renderInt (maxIds (currentContent db c) + 1)))) ∧
      currentContent (insertOp db c item).1 c
        = currentContent db c
          ++ [mintedRecord db.uidCtr (maxIds (currentContent db c) + 1)
               (applyDefaults (lookupSchema db.schemas c) item)] := by
  intro db c item hf hv hid huid
  cases hcase : lookupStore db.store c with
  | none =>
    have hcc : currentContent db c = [] := by simp [currentContent, hcase]
    rw [hcc]
    have h := insertOp_missing db c item hf hcase hv
    refine ⟨?_, getField_mintedRecord_id _ _ _ hid,
      getField_mintedRecord_uid _ _ _ huid, ?_, ?_⟩
    · rw [h]
      simp [maxIds]
    · intro r hr
      simp at hr
    · rw [h]
      simp [currentContent, auditAdd, lookupStore_setStore_same, maxIds]
  | some b =>
    have hcc : currentContent db c = b.content := by simp [currentContent, hcase]
    rw [hcc]
    have h := insertOp_found db c item b hf hcase hv
    refine ⟨by rw [h], getField_mintedRecord_id _ _ _ hid,
      getField_mintedRecord_uid _ _ _ huid, ?_, ?_⟩
    · intro r hr
      exact getField_ne_next_id b.content r hr
    · rw [h]
      simp [currentContent, auditAdd, lookupStore_setStore_same]

/-- Witness for C4 (amended) at a concrete store: the allocated id is 2
and differs from the existing id. -/
theorem insert_fresh_identifiers_witness :
    (insertOp dbOne "c" [("y", JVal.num 5)]).2
      = .ok [("uid", JVal.str "uuid-0"), ("id", JVal.str "2"), ("y", JVal.num 5)] ∧
    (∀ r ∈ currentContent dbOne "c",
      getField r "id"
        ≠ some (JVal.str (renderInt (maxIds (currentContent dbOne "c") + 1)))) := by
  have h := insert_fresh_identifiers dbOne "c" [("y", JVal.num 5)] rfl rfl rfl rfl
  exact ⟨h.1.trans rfl, h.2.2.2.1⟩

/-- C5 counterexample: bulkInsert on a never-written collection performs
two writes (the lazy initialization plus the batch write), and an item
carrying its own id breaks the strictly increasing allocation: both
returned records carry the id 1. -/
theorem bulk_insert_two_writes_and_id_override :
    (bulkInsertOp dbEmpty "c" [[], [("id", JVal.str "1")]]).2
      = .ok [[("uid", JVal.str "uuid-0"), ("id", JVal.str "1")],
             [("uid", JVal.str "uuid-1"), ("id", JVal.str "1")]] ∧
    dbEmpty.puts = 0 ∧
    (bulkInsertOp dbEmpty "c" [[], [("id", JVal.str "1")]]).1.puts = 2 :=
  ⟨rfl, rfl, rfl⟩

/-- C5 (amended): for bulkInsert into a collection whose blob exists,
when every item after schema defaults passes validation and carries
neither id nor uid, the call returns one minted record per input item in
input order, built from one fetched snapshot, the ids form the
contiguous run max(existing ids, 0) + 1 up to + N, and exactly one PUT
is performed. -/
theorem bulk_insert_contiguous_single_write :
    ∀ (db : DB) (c : String) (items : List Record) (b : Blob),
      db.readFault = none → lookupStore db.store c = some b →
      (∀ it ∈ items, validateRec (lookupSchema db.schemas c)
        (applyDefaults (lookupSchema db.schemas c) it) = none) →
      (∀ it ∈ items,
        getField (applyDefaults (lookupSchema db.schemas c) it) "id" = none) →
      (bulkInsertOp db c items).2
        = .ok (mkBulk (lookupSchema db.schemas c) items (maxIds b.content + 1)
            db.uidCtr) ∧
      (mkBulk (lookupSchema db.schemas c) items (maxIds b.content + 1)
          db.uidCtr).length = items.length ∧
      (∀ j, j < items.length →
        (mkBulk (lookupSchema db.schemas c) items (maxIds b.content + 1)
            db.uidCtr).getD j []
          = mintedRecord (db.uidCtr + j) (maxIds b.content + 1 + j)
              (applyDefaults (lookupSchema db.schemas c) (items.getD j []))) ∧
      (∀ j, j < items.length →
        getField ((mkBulk (lookupSchema db.schemas c) items (maxIds b.content + 1)
            db.uidCtr).getD j []) "id"
          = some (JVal.str (renderInt (maxIds b.content + 1 + j)))) ∧
      (bulkInsertOp db c items).1.puts = db.puts + 1 := by
  intro db c items b hf hl hval hid
  have h := bulkInsertOp_found db c items b hf hl hval
  refine ⟨by rw [h], mkBulk_length _ _ _ _, ?_, ?_, by rw [h]⟩
  · intro j hj
    exact mkBulk_getD _ _ _ _ j hj
  · intro j hj
    rw [mkBulk_getD _ _ _ _ j hj, getField_mintedRecord_id]
    exact hid _ (getD_mem items j hj)

/-- Witness for C5 (amended) at a concrete store: ids 2 and 3 are
allocated in input order with a single write. -/
theorem bulk_insert_contiguous_single_write_witness :
    (bulkInsertOp dbOne "c" [[("y", JVal.num 1)], []]).2
      = .ok [[("uid", JVal.str "uuid-0"), ("id", JVal.str "2"), ("y", JVal.num 1)],
             [("uid", JVal.str "uuid-1"), ("id", JVal.str "3")]] ∧
    (bulkInsertOp dbOne "c" [[("y", JVal.num 1)], []]).1.puts = dbOne.puts + 1 := by
  have h := bulk_insert_contiguous_single_write dbOne "c" [[("y", JVal.num 1)], []]
    ⟨[recOne], 1⟩ rfl rfl (by decide) (by decide)
  exact ⟨h.1.trans rfl, h.2.2.2.2⟩

/-- C7 counterexample: insert with a missing required field into a
never-written collection does fail with the ValidationError naming the
collection and the field, but a write has happened: the lazy
initialization created the empty blob. -/
theorem validation_failure_still_writes_blob :
    (insertOp dbSchema "users" [("name", JVal.str "x")]).2
      = .error (.validation "users" "email") ∧
    dbSchema.puts = 0 ∧
    lookupStore dbSchema.store "users" = none ∧
    (insertOp dbSchema "users" [("name", JVal.str "x")]).1.puts = 1 ∧
    lookupStore (insertOp dbSchema "users" [("name", JVal.str "x")]).1.store "users"
      = some ⟨[], 1⟩ :=
  ⟨rfl, rfl, rfl, rfl, rfl⟩

/-- C7 (amended): a missing required field aborts insert and bulkInsert
with a ValidationError naming the collection and the field, before any
write of record data: with an existing blob the state is untouched apart
from the read counter (and, for bulkInsert, uuid minting for the items
preceding the invalid one); with an absent blob the only write is the
lazy initialization of the empty collection performed by get. -/
theorem validation_aborts_before_write :
    (∀ (db : DB) (c : String) (item : Record) (f : String) (b : Blob),
      db.readFault = none → lookupStore db.store c = some b →
      validateRec (lookupSchema db.schemas c)
        (applyDefaults (lookupSchema db.schemas c) item) = some f →
      insertOp db c item
        = ({ db with reads := db.reads + 1 }, .error (.validation c f)))
    ∧ (∀ (db : DB) (c : String) (item : Record) (f : String),
      db.readFault = none → lookupStore db.store c = none →
      validateRec (lookupSchema db.schemas c)
        (applyDefaults (lookupSchema db.schemas c) item) = some f →
      insertOp db c item =
        ({ db with reads := db.reads + 2, puts := db.puts + 1,
                   shaCtr := db.shaCtr + 1,
                   store := setStore db.store c ⟨[], db.shaCtr⟩ },
         .error (.validation c f)))
    ∧ (∀ (db : DB) (c : String) (pre : List Record) (bad : Record)
        (rest : List Record) (f : String) (b : Blob),
      db.readFault = none → lookupStore db.store c = some b →
      (∀ it ∈ pre, validateRec (lookupSchema db.schemas c)
        (applyDefaults (lookupSchema db.schemas c) it) = none) →
      validateRec (lookupSchema db.schemas c)
        (applyDefaults (lookupSchema db.schemas c) bad) = some f →
      bulkInsertOp db c (pre ++ bad :: rest)
        = ({ db with reads := db.reads + 1, uidCtr := db.uidCtr + pre.length },
           .error (.validation c f))) := by
  refine ⟨?_, ?_, ?_⟩
  · intro db c item f b hf hl hv
    exact insertOp_invalid_found db c item b f hf hl hv
  · intro db c item f hf hl hv
    exact insertOp_invalid_missing db c item f hf hl hv
  · intro db c pre bad rest f b hf hl hpre hbad
    rw [bulkInsertOp, getOp_found db c b hf hl]
    dsimp only
    rw [bulkLoop_invalid c (lookupSchema db.schemas c) pre bad rest b.content
      (maxIds b.content + 1) { db with reads := db.reads + 1 } f hpre hbad]

/-- Witness for C7 (amended): insert and bulkInsert aborted by the
required-email schema, against present and absent blobs. -/
theorem validation_aborts_before_write_witness :
    insertOp dbSchemaUsers "users" [("name", JVal.str "x")]
      = ({ dbSchemaUsers with reads := dbSchemaUsers.reads + 1 },
         .error (.validation "users" "email")) ∧
    (insertOp dbSchema "users" [("nick", JVal.str "y")]).2
      = .error (.validation "users" "email") ∧
    bulkInsertOp dbSchemaUsers "users"
        [[("email", JVal.str "e")], [("name", JVal.str "x")]]
      = ({ dbSchemaUsers with reads := dbSchemaUsers.reads + 1
                              uidCtr := dbSchemaUsers.uidCtr + 1 },
         .error (.validation "users" "email")) := by
  refine ⟨?_, ?_, ?_⟩
  · exact validation_aborts_before_write.1 dbSchemaUsers "users"
      [("name", JVal.str "x")] "email" ⟨[], 1⟩ rfl rfl rfl
  · rw [validation_aborts_before_write.2.1 dbSchema "users"
      [("nick", JVal.str "y")] "email" rfl rfl rfl]
  · exact validation_aborts_before_write.2.2 dbSchemaUsers "users"
      [[("email", JVal.str "e")]] [("name", JVal.str "x")] [] "email" ⟨[], 1⟩
      rfl rfl (by decide) rfl

/-- C9: update on an existing record shallow-merges the patch over it:
every field named in the patch takes the patch value, every other field
of the record is preserved (a nested object named in the patch is
replaced wholesale, not merged), and every other record of the
collection is unchanged in the stored result. -/
theorem update_shallow_merge_frame :
    ∀ (db : DB) (c key : String) (patch : Record) (i : Nat) (b : Blob),
      db.readFault = none → lookupStore db.store c = some b →
      findMatchIdx b.content key = some i →
      (patch.map Prod.fst).Nodup →
      (updateOp db c key patch).2 = .ok (some (spread (b.content.getD i []) patch)) ∧
      (∀ k v, getField patch k = some v →
        getField (spread (b.content.getD i []) patch) k = some v) ∧
      (∀ k, getField patch k = none →
        getField (spread (b.content.getD i []) patch) k
          = getField (b.content.getD i []) k) ∧
      currentContent (updateOp db c key patch).1 c
        = b.content.set i (spread (b.content.getD i []) patch) ∧
      (∀ j, j ≠ i →
        (b.content.set i (spread (b.content.getD i []) patch)).getD j []
          = b.content.getD j []) := by
  intro db c key patch i b hf hl hm hnd
  have h := updateOp_found_match db c key patch i b hf hl hm
  refine ⟨by rw [h], ?_, ?_, ?_, ?_⟩
  · intro k v hk
    exact getField_spread_of_mem _ _ _ _ hnd hk
  · intro k hk
    exact getField_spread_of_not_mem _ _ _ hk
  · rw [h]
    simp [currentContent, auditAdd, lookupStore_setStore_same]
  · intro j hj
    exact getD_set_ne _ _ _ _ hj

/-- Witness for C9 with a nested object in the patch: the nested object
is replaced wholesale and the fields not named in the patch survive. -/
theorem update_shallow_merge_frame_witness :
    (updateOp dbNest "c" "1"
        [("meta", JVal.obj (JValObj.cons "a" (JVal.num 9) JValObj.nil))]).2
      = .ok (some [("uid", JVal.str "u0"), ("id", JVal.str "1"),
          ("meta", JVal.obj (JValObj.cons "a" (JVal.num 9) JValObj.nil))]) ∧
    getField (spread ([recNest].getD 0 [])
        [("meta", JVal.obj (JValObj.cons "a" (JVal.num 9) JValObj.nil))]) "uid"
      = getField ([recNest].getD 0 []) "uid" := by
  have h := update_shallow_merge_frame dbNest "c" "1"
    [("meta", JVal.obj (JValObj.cons "a" (JVal.num 9) JValObj.nil))] 0
    ⟨[recNest], 1⟩ rfl rfl (by decide) (by decide)
  exact ⟨h.1.trans rfl, h.2.2.1 "uid" rfl⟩

/-- C10: a caller-supplied field of the partial, id and uid included,
overrides the minted value in both the returned and the stored record
for insert and bulkInsert, and an update patch naming id or uid replaces
the record identifiers. -/
theorem caller_fields_override_minted :
    (∀ (db : DB) (c : String) (item : Record) (b : Blob) (k : String) (v : JVal),
      db.readFault = none → lookupStore db.store c = some b →
      validateRec (lookupSchema db.schemas c)
        (applyDefaults (lookupSchema db.schemas c) item) = none →
      ((applyDefaults (lookupSchema db.schemas c) item).map Prod.fst).Nodup →
      getField (applyDefaults (lookupSchema db.schemas c) item) k = some v →
      (insertOp db c item).2
        = .ok (mintedRecord db.uidCtr (maxIds b.content + 1)
            (applyDefaults (lookupSchema db.schemas c) item)) ∧
      getField (mintedRecord db.uidCtr (maxIds b.content + 1)
          (applyDefaults (lookupSchema db.schemas c) item)) k = some v ∧
      currentContent (insertOp db c item).1 c
        = b.content ++ [mintedRecord db.uidCtr (maxIds b.content + 1)
            (applyDefaults (lookupSchema db.schemas c) item)])
    ∧ (∀ (db : DB) (c : String) (items : List Record) (b : Blob) (j : Nat)
        (k : String) (v : JVal),
      db.readFault = none → lookupStore db.store c = some b →
      (∀ it ∈ items, validateRec (lookupSchema db.schemas c)
        (applyDefaults (lookupSchema db.schemas c) it) = none) →
      j < items.length →
      ((applyDefaults (lookupSchema db.schemas c) (items.getD j [])).map
        Prod.fst).Nodup →
      getField (applyDefaults (lookupSchema db.schemas c) (items.getD j [])) k
        = some v →
      (bulkInsertOp db c items).2
        = .ok (mkBulk (lookupSchema db.schemas c) items (maxIds b.content + 1)
            db.uidCtr) ∧
      getField ((mkBulk (lookupSchema db.schemas c) items (maxIds b.content + 1)
          db.uidCtr).getD j []) k = some v)
    ∧ (∀ (db : DB) (c key : String) (patch : Record) (i : Nat) (b : Blob)
        (k : String) (v : JVal),
      db.readFault = none → lookupStore db.store c = some b →
      findMatchIdx b.content key = some i →
      (patch.map Prod.fst).Nodup →
      getField patch k = some v →
      (updateOp db c key patch).2
        = .ok (some (spread (b.content.getD i []) patch)) ∧
      getField (spread (b.content.getD i []) patch) k = some v) := by
  refine ⟨?_, ?_, ?_⟩
  · intro db c item b k v hf hl hv hnd hk
    refine ⟨by rw [insertOp_found db c item b hf hl hv],
      getField_mintedRecord_of_mem _ _ _ _ _ hnd hk, ?_⟩
    rw [insertOp_found db c item b hf hl hv]
    simp [currentContent, auditAdd, lookupStore_setStore_same]
  · intro db c items b j k v hf hl hval hj hnd hk
    refine ⟨by rw [bulkInsertOp_found db c items b hf hl hval], ?_⟩
    rw [mkBulk_getD _ _ _ _ j hj]
    exact getField_mintedRecord_of_mem _ _ _ _ _ hnd hk
  · intro db c key patch i b k v hf hl hm hnd hk
    exact ⟨by rw [updateOp_found_match db c key patch i b hf hl hm],
      getField_spread_of_mem _ _ _ _ hnd hk⟩

/-- Witness for C10: caller-supplied id on insert, uid on bulkInsert and
id in an update patch all override the minted identifiers. -/
theorem caller_fields_override_minted_witness :
    (insertOp dbOne "c" [("id", JVal.str "7")]).2
      = .ok [("uid", JVal.str "uuid-0"), ("id", JVal.str "7")] ∧
    getField ((mkBulk (lookupSchema dbOne.schemas "c") [[("uid", JVal.str "U")]]
        (maxIds [recOne] + 1) dbOne.uidCtr).getD 0 []) "uid"
      = some (JVal.str "U") ∧
    (updateOp dbOne "c" "1" [("id", JVal.str "9")]).2
      = .ok (some [("uid", JVal.str "u0"), ("id", JVal.str "9"), ("x", JVal.num 0)]) := by
  refine ⟨?_, ?_, ?_⟩
  · exact ((caller_fields_override_minted.1 dbOne "c" [("id", JVal.str "7")]
      ⟨[recOne], 1⟩ "id" (JVal.str "7") rfl rfl rfl (by decide) rfl).1).trans rfl
  · exact (caller_fields_override_minted.2.1 dbOne "c" [[("uid", JVal.str "U")]]
      ⟨[recOne], 1⟩ 0 "uid" (JVal.str "U") rfl rfl (by decide) (by decide)
      (by decide) rfl).2
  · exact ((caller_fields_override_minted.2.2 dbOne "c" "1" [("id", JVal.str "9")] 0
      ⟨[recOne], 1⟩ "id" (JVal.str "9") rfl rfl (by decide) (by decide) rfl).1).trans rfl

end Sdk
